import Mathlib

/-!
# Verification of the spi_flash battery log synchronization core

Shallow embedding of `src/components/spiflash/spiflash.c`:

* the incremental sync engine (`battery_fs_identify_new_records`,
  `battery_fs_write_data`),
* the append-only log scanners (`battery_fs_get_last_log`,
  `battery_fs_get_entry_count`, `battery_fs_read_data`),
* the NAND page-program sequence (`spiflash_write_page`).

Machine integers are modelled as `Nat`; the only arithmetic where a
uint32 can overflow is the `record_count` accumulation in
`battery_fs_write_data`, which is reduced `% 2 ^ 32` exactly where the C
stores into the `uint32_t` field.  File contents are byte lists, files
are `Option` (absent / present), and the FreeRTOS / VFS layer is
abstracted away: `fopen`/`fread`/`fwrite` on present files succeed, and
the one fallible store the claims mention (`battery_fs_write_metadata`)
is modelled by an explicit success flag.
-/

/-- `esp_err_t` values actually produced by the modelled functions. -/
inductive EspErr where
  | ok
  | fail
  | invalidArg
  | notFound
  | timeout
deriving DecidableEq, Repr

/-- `battery_log_t` (battery_fs.h:39): one telemetry record.
`data_len` is `data.length`. -/
structure battery_log where
  memory_index : Nat
  data : List Nat
deriving DecidableEq, Repr

instance : Inhabited battery_log := ⟨⟨0, []⟩⟩

/-- `battery_metadata_t` (battery_fs.h:49): per-device sync metadata.
All four fields are `uint32_t` in the source. -/
structure battery_metadata where
  last_memory_index : Nat
  record_count : Nat
  last_timestamp : Nat
  last_data_hash : Nat
deriving DecidableEq, Repr

/-- One step of the reflected CRC-32 bit loop (polynomial 0xEDB88320). -/
def crc32_shift (c : Nat) : Nat :=
  if c % 2 = 1 then (c / 2) ^^^ 0xEDB88320 else c / 2

/-- Fold one byte into a CRC-32 state. -/
def crc32_byte (crc b : Nat) : Nat :=
  crc32_shift^[8] (crc ^^^ b % 256)

/-- `esp_crc32_le` (ESP-IDF ROM, external to this repository): standard
little-endian CRC-32 with the usual pre/post inversion, seeded by `crc`. -/
def esp_crc32_le (crc : Nat) (data : List Nat) : Nat :=
  (data.foldl crc32_byte ((crc % 2 ^ 32) ^^^ 0xFFFFFFFF)) ^^^ 0xFFFFFFFF

/-- `calculate_data_hash` (spiflash.c:1423): CRC32 of a record payload. -/
def calculate_data_hash (data : List Nat) : Nat :=
  esp_crc32_le 0 data

/-- `battery_fs_identify_new_records` (spiflash.c:1427-1498), returning the
`new_logs` output buffer as a list (`*new_count` is its length).

Control flow of the source: `record_count == 0` means "no existing data,
all logs new"; otherwise the first snapshot record whose `memory_index`
equals `last_memory_index` is located; if it exists and its payload hash
differs from the stored hash, all logs are returned; otherwise (hash
matched, or no such record) the `last_memory_index >= 256` wraparound
guard returns nothing, and below the guard the records with
`memory_index > last_memory_index` are returned in order. -/
def battery_fs_identify_new_records (md : battery_metadata)
    (logs : List battery_log) : List battery_log :=
  if md.record_count = 0 then
    logs
  else
    match logs.find? (fun l => l.memory_index == md.last_memory_index) with
    | some matching_log =>
      if calculate_data_hash matching_log.data ≠ md.last_data_hash then
        logs
      else if 256 ≤ md.last_memory_index then
        []
      else
        logs.filter (fun l => decide (md.last_memory_index < l.memory_index))
    | none =>
      if 256 ≤ md.last_memory_index then
        []
      else
        logs.filter (fun l => decide (md.last_memory_index < l.memory_index))

/-- Persistent per-serial state seen by one sync cycle: the data file
(`<serial>.bin`, a list of appended records) and the metadata file
(`<serial>.meta`).  `none` = the file does not exist / cannot be read. -/
structure fs_state where
  dataFile : Option (List battery_log)
  metaFile : Option battery_metadata
deriving DecidableEq, Repr

/-- Loop body of the highest-index search of `battery_fs_write_data`
(spiflash.c:1615-1620): replace the candidate only on strictly greater
`memory_index`. -/
def pick_higher (best l : battery_log) : battery_log :=
  if best.memory_index < l.memory_index then l else best

/-- The highest-index search of `battery_fs_write_data` (spiflash.c:1612-1620):
starts from `logs[0]` and replaces the candidate on strictly greater
`memory_index`, so it yields the first record attaining the maximum index. -/
def find_highest_index_log (logs : List battery_log) : battery_log :=
  logs.foldl pick_higher (logs.headD default)

/-- Metadata recomputation of `battery_fs_write_data` (spiflash.c:1610-1625).
`record_count` is stored into a `uint32_t`, hence the `% 2 ^ 32`. -/
def update_metadata (oldCount : Nat) (fileExists : Bool) (logs : List battery_log)
    (writeCount now : Nat) : battery_metadata :=
  let last_log := find_highest_index_log logs
  { last_memory_index := last_log.memory_index
    record_count := (if fileExists then oldCount + writeCount else writeCount) % 2 ^ 32
    last_timestamp := now % 2 ^ 32
    last_data_hash := calculate_data_hash last_log.data }

/-- `battery_fs_write_data` (spiflash.c:1504-1637), one sync cycle:

* `log_count == 0` is rejected as `ESP_ERR_INVALID_ARG`;
* if the data file exists and the metadata is readable, the new subset is
  identified; zero new records returns `ESP_OK` early, leaving both files
  untouched (spiflash.c:1547-1551);
* otherwise (no data file, or metadata unreadable) the battery is treated
  as new: all logs are written with mode "wb", truncating any prior data;
* after a successful append the metadata is recomputed from the *whole*
  snapshot and written; a metadata write failure (`metaWriteOk = false`)
  is only logged — the function still returns `ESP_OK`
  (spiflash.c:1631-1636). -/
def battery_fs_write_data (st : fs_state) (logs : List battery_log)
    (metaWriteOk : Bool) (now : Nat) : EspErr × fs_state :=
  if logs.isEmpty then
    (EspErr.invalidArg, st)
  else
    match st.dataFile, st.metaFile with
    | some stored, some md =>
      let new_logs := battery_fs_identify_new_records md logs
      if new_logs.isEmpty then
        (EspErr.ok, st)
      else
        let md' := update_metadata md.record_count true logs new_logs.length now
        (EspErr.ok,
          { dataFile := some (stored ++ new_logs)
            metaFile := if metaWriteOk then some md' else st.metaFile })
    | some _, none =>
      let md' := update_metadata 0 false logs logs.length now
      (EspErr.ok,
        { dataFile := some logs
          metaFile := if metaWriteOk then some md' else st.metaFile })
    | none, mf =>
      let md' := update_metadata 0 false logs logs.length now
      (EspErr.ok,
        { dataFile := some logs
          metaFile := if metaWriteOk then some md' else mf })

/-!
## Log file scanners

The on-disk record stream is `repeat: index:u32-LE length:u32-LE payload`.
A stream is a byte list; a stored log file is `Option (List Nat)`
(`none` = the file does not exist).  `fread` of a 4-byte header fails
exactly when fewer than 4 bytes remain; `fseek(SEEK_CUR)` over the
payload succeeds even when the payload is truncated (POSIX / FatFS both
accept the seek), so the seek-based scanners do not detect a missing
payload tail — only an actual `fread` of the payload does.
-/

/-- Little-endian `uint32` assembled from four stream bytes. -/
def le32 (b0 b1 b2 b3 : Nat) : Nat :=
  b0 % 256 + b1 % 256 * 256 + b2 % 256 * 65536 + b3 % 256 * 16777216

/-- The `(index, length)` headers recognized by the seek-based scan loops
of `battery_fs_get_last_log` and `battery_fs_get_entry_count`: each
iteration needs a complete 8-byte header and then skips `length` bytes
without checking that they are all present. -/
def scanHeaders : List Nat → List (Nat × Nat)
  | a0 :: a1 :: a2 :: a3 :: b0 :: b1 :: b2 :: b3 :: rest =>
    (le32 a0 a1 a2 a3, le32 b0 b1 b2 b3) ::
      scanHeaders (rest.drop (le32 b0 b1 b2 b3))
  | _ => []
termination_by bytes => bytes.length
decreasing_by
  simp only [List.length_drop, List.length_cons]
  omega

/-- Scan loop of `battery_fs_get_last_log` (spiflash.c:2318-2342), carrying
`(found_entry, last_valid_log)` as an `Option`: read index header (stop if
incomplete), read length header (stop if incomplete), `fseek` over the
payload, remember the index. -/
def get_last_log_scan : List Nat → Option Nat → Option Nat
  | a0 :: a1 :: a2 :: a3 :: b0 :: b1 :: b2 :: b3 :: rest, _ =>
    get_last_log_scan (rest.drop (le32 b0 b1 b2 b3)) (some (le32 a0 a1 a2 a3))
  | _, acc => acc
termination_by bytes _ => bytes.length
decreasing_by
  simp only [List.length_drop, List.length_cons]
  omega

/-- `battery_fs_get_last_log` (spiflash.c:2284-2354): `ESP_ERR_NOT_FOUND`
if the file does not exist or no entry header was parsed, otherwise the
index of the last header reached by the scan.  The `Option Nat` result
models the `*last_log` out-parameter (left unset on failure). -/
def battery_fs_get_last_log (file : Option (List Nat)) : EspErr × Option Nat :=
  match file with
  | none => (EspErr.notFound, none)
  | some bytes =>
    match get_last_log_scan bytes none with
    | none => (EspErr.notFound, none)
    | some idx => (EspErr.ok, some idx)

/-- Scan loop of `battery_fs_get_entry_count` (spiflash.c:2474-2479). -/
def get_entry_count_scan : List Nat → Nat
  | a0 :: a1 :: a2 :: a3 :: b0 :: b1 :: b2 :: b3 :: rest =>
    get_entry_count_scan (rest.drop (le32 b0 b1 b2 b3)) + 1
  | _ => 0
termination_by bytes => bytes.length
decreasing_by
  simp only [List.length_drop, List.length_cons]
  omega

/-- `battery_fs_get_entry_count` (spiflash.c:2442-2485): `*count = 0` and
`ESP_ERR_NOT_FOUND` when the file is absent, else the header count. -/
def battery_fs_get_entry_count (file : Option (List Nat)) : EspErr × Nat :=
  match file with
  | none => (EspErr.notFound, 0)
  | some bytes => (EspErr.ok, get_entry_count_scan bytes)

/-- Scan loop of `battery_fs_read_data` (spiflash.c:2395-2430), returning
the `(log_num, payload)` records actually delivered to the callback:
unlike the seek-based scans it `fread`s the payload, so a record whose
payload is truncated is *not* visited; a `false` callback result stops the
scan after the current record. -/
def read_data_scan (cb : Nat → List Nat → Bool) : List Nat → List (Nat × List Nat)
  | a0 :: a1 :: a2 :: a3 :: b0 :: b1 :: b2 :: b3 :: rest =>
    if le32 b0 b1 b2 b3 ≤ rest.length then
      if cb (le32 a0 a1 a2 a3) (rest.take (le32 b0 b1 b2 b3)) then
        (le32 a0 a1 a2 a3, rest.take (le32 b0 b1 b2 b3)) ::
          read_data_scan cb (rest.drop (le32 b0 b1 b2 b3))
      else
        [(le32 a0 a1 a2 a3, rest.take (le32 b0 b1 b2 b3))]
    else
      []
  | _ => []
termination_by bytes => bytes.length
decreasing_by
  simp only [List.length_drop, List.length_cons]
  omega

/-- `battery_fs_read_data` (spiflash.c:2356-2440): `ESP_ERR_NOT_FOUND`
when the file is absent, else `ESP_OK` together with the visited records
(the C returns `ESP_OK` even when zero entries were read). -/
def battery_fs_read_data (file : Option (List Nat))
    (cb : Nat → List Nat → Bool) : EspErr × List (Nat × List Nat) :=
  match file with
  | none => (EspErr.notFound, [])
  | some bytes => (EspErr.ok, read_data_scan cb bytes)

/-!
## NAND page programming

The chip is abstracted by the stream of status-register values it
returns: `st k` is the byte produced by the `k`-th `spiflash_read_status`
call of the operation (status bits per spiflash.h: bit0 busy, bit1 WEL,
bit3 program-fail).  SPI transport itself is assumed to succeed; the
bounded 1 ms poll loop of `spiflash_wait_ready` is modelled with a fuel
count of polls, `Timeout` when exhausted.  The observable output is the
returned `esp_err_t` together with the trace of mutating commands put on
the bus (status reads excluded). -/
inductive Cmd where
  | writeEnable
  | writeDisable
  | programLoad
  | programExecute
deriving DecidableEq, Repr

/-- `spiflash_wait_ready` (spiflash.c:167-193): poll the status register
from read-counter `k` until bit0 (busy/OIP) clears; `some k'` returns the
next unconsumed read counter, `none` is `ESP_ERR_TIMEOUT`. -/
def spiflash_wait_ready (st : Nat → Nat) : Nat → Nat → Option Nat
  | _, 0 => none
  | k, fuel + 1 =>
    if (st k).testBit 0 = false then some (k + 1)
    else spiflash_wait_ready st (k + 1) fuel

/-- `spiflash_write_page` (spiflash.c:283-368): wait ready; write-enable;
verify WEL via `spiflash_verify_wel` (spiflash.c:133-147) — `ESP_FAIL`
*before* the program-load transaction if bit1 is clear; program-load,
program-execute; wait ready; read status and return `ESP_FAIL` if bit3
(P-FAIL) is set; otherwise write-disable and return `ESP_OK`. -/
def spiflash_write_page (st : Nat → Nat) (fuel : Nat) : EspErr × List Cmd :=
  match spiflash_wait_ready st 0 fuel with
  | none => (EspErr.timeout, [])
  | some k1 =>
    if (st k1).testBit 1 = false then
      (EspErr.fail, [Cmd.writeEnable])
    else
      match spiflash_wait_ready st (k1 + 1) fuel with
      | none =>
        (EspErr.timeout, [Cmd.writeEnable, Cmd.programLoad, Cmd.programExecute])
      | some k3 =>
        if (st k3).testBit 3 = true then
          (EspErr.fail, [Cmd.writeEnable, Cmd.programLoad, Cmd.programExecute])
        else
          (EspErr.ok,
            [Cmd.writeEnable, Cmd.programLoad, Cmd.programExecute, Cmd.writeDisable])

/-!
## Theorems
-/

/-- C2: when stored metadata exists (its `record_count` is nonzero, which
is what the code treats as "existing data", and is true of every metadata
record the engine itself persists) and no snapshot record has index equal
to `meta.last_index`: below the wraparound guard 256 the cycle appends
exactly the snapshot records with `index > meta.last_index`, otherwise it
appends nothing. -/
theorem write_data_tail_not_found_policy
    (stored : List battery_log) (md : battery_metadata) (logs : List battery_log)
    (now : Nat) (hrc : md.record_count ≠ 0)
    (hfind : logs.find? (fun l => l.memory_index == md.last_memory_index) = none) :
    (battery_fs_write_data ⟨some stored, some md⟩ logs true now).2.dataFile =
      some (stored ++
        if 256 ≤ md.last_memory_index then []
        else logs.filter (fun l => decide (md.last_memory_index < l.memory_index))) := by
  cases logs with
  | nil =>
    simp [battery_fs_write_data, ite_self]
  | cons a t =>
    by_cases h256 : 256 ≤ md.last_memory_index
    · simp [battery_fs_write_data, battery_fs_identify_new_records, hrc, hfind, h256]
    · simp only [battery_fs_write_data, battery_fs_identify_new_records, hrc, hfind,
        h256, if_false, if_neg hrc, List.isEmpty_cons]
      by_cases hf :
          ((a :: t).filter (fun l => decide (md.last_memory_index < l.memory_index))).isEmpty
      · rw [List.isEmpty_iff] at hf
        simp [hf]
      · simp [hf]

/-- Witness for C2: metadata `{last_index 3, count 1}`, snapshot `[{5,"F"}]`
contains no record with index 3, and 3 < 256, so exactly `{5,"F"}` is
appended. -/
theorem write_data_tail_not_found_policy_witness :
    (battery_fs_write_data ⟨some [⟨3, [65]⟩], some ⟨3, 1, 0, 7⟩⟩
        [⟨5, [70]⟩] true 0).2.dataFile =
      some ([⟨3, [65]⟩] ++
        if 256 ≤ (3 : Nat) then []
        else [⟨5, [70]⟩].filter (fun l => decide (3 < l.memory_index))) :=
  write_data_tail_not_found_policy [⟨3, [65]⟩] ⟨3, 1, 0, 7⟩ [⟨5, [70]⟩] 0
    (by decide) (by decide)

/-- C1 (amended): when stored metadata exists and the first snapshot
record with `index = meta.last_index` has payload hash equal to
`meta.last_hash`, the cycle appends exactly the records with
`index > meta.last_index` *provided* `meta.last_index < 256`; when
`meta.last_index ≥ 256` the wraparound guard of
`battery_fs_identify_new_records` fires even in this matched case and the
cycle appends nothing. -/
theorem write_data_tail_match_policy
    (stored : List battery_log) (md : battery_metadata) (logs : List battery_log)
    (now : Nat) (hrc : md.record_count ≠ 0) (m : battery_log)
    (hfind : logs.find? (fun l => l.memory_index == md.last_memory_index) = some m)
    (hhash : calculate_data_hash m.data = md.last_data_hash) :
    (battery_fs_write_data ⟨some stored, some md⟩ logs true now).2.dataFile =
      some (stored ++
        if 256 ≤ md.last_memory_index then []
        else logs.filter (fun l => decide (md.last_memory_index < l.memory_index))) := by
  cases logs with
  | nil => simp at hfind
  | cons a t =>
    by_cases h256 : 256 ≤ md.last_memory_index
    · simp [battery_fs_write_data, battery_fs_identify_new_records, hrc, hfind, hhash, h256]
    · simp only [battery_fs_write_data, battery_fs_identify_new_records, hrc, hfind,
        hhash, h256, ne_eq, not_true_eq_false, if_false, if_neg hrc, List.isEmpty_cons]
      by_cases hf :
          ((a :: t).filter (fun l => decide (md.last_memory_index < l.memory_index))).isEmpty
      · rw [List.isEmpty_iff] at hf
        simp [hf]
      · simp [hf]

/-- Witness for C1 (amended): metadata `{last_index 1, count 1,
hash crc32("A")}`, snapshot `[{1,"A"},{2,"B"}]`: record 1 matches, so
`{2,"B"}` is appended. -/
theorem write_data_tail_match_policy_witness :
    (battery_fs_write_data
        ⟨some [⟨1, [65]⟩], some ⟨1, 1, 0, calculate_data_hash [65]⟩⟩
        [⟨1, [65]⟩, ⟨2, [66]⟩] true 0).2.dataFile =
      some ([⟨1, [65]⟩] ++
        if 256 ≤ (1 : Nat) then []
        else [⟨1, [65]⟩, ⟨2, [66]⟩].filter (fun l => decide (1 < l.memory_index))) :=
  write_data_tail_match_policy [⟨1, [65]⟩] ⟨1, 1, 0, calculate_data_hash [65]⟩
    [⟨1, [65]⟩, ⟨2, [66]⟩] 0 (by decide) ⟨1, [65]⟩ (by decide) rfl

/-- Counterexample to C1 as stated: metadata `{last_index 300, count 1,
hash crc32("A")}` matches snapshot record `{300,"A"}` exactly, yet the
cycle appends *nothing* (300 ≥ 256 triggers the guard), although the
snapshot record `{301,"B"}` has index above `meta.last_index` — so the
"regardless of the value of meta.last_index" part of the claim is false. -/
theorem write_data_tail_match_policy_counterexample :
    (battery_fs_write_data
        ⟨some [⟨300, [65]⟩], some ⟨300, 1, 0, calculate_data_hash [65]⟩⟩
        [⟨300, [65]⟩, ⟨301, [66]⟩] true 0) =
      (EspErr.ok, ⟨some [⟨300, [65]⟩], some ⟨300, 1, 0, calculate_data_hash [65]⟩⟩)
    ∧ ([⟨300, [65]⟩, ⟨301, [66]⟩] : List battery_log).filter
        (fun l => decide ((300 : Nat) < l.memory_index)) = [⟨301, [66]⟩] := by
  constructor
  · decide
  · decide

/-- C3 (amended, general rule): when stored metadata exists and the first
snapshot record with `index = meta.last_index` has payload hash different
from `meta.last_hash`, the cycle appends all records of the snapshot. -/
theorem write_data_hash_mismatch_appends_all
    (stored : List battery_log) (md : battery_metadata) (logs : List battery_log)
    (now : Nat) (hrc : md.record_count ≠ 0) (m : battery_log)
    (hfind : logs.find? (fun l => l.memory_index == md.last_memory_index) = some m)
    (hhash : calculate_data_hash m.data ≠ md.last_data_hash) :
    (battery_fs_write_data ⟨some stored, some md⟩ logs true now).2.dataFile =
      some (stored ++ logs) := by
  cases logs with
  | nil => simp at hfind
  | cons a t =>
    simp [battery_fs_write_data, battery_fs_identify_new_records, hrc, hfind, hhash]

/-- Witness for C3 (amended): metadata `{last_index 2, count 1, hash 0}`
against snapshot `[{2,"C"},{3,"D"}]` whose record 2 hashes to something
other than 0: all 2 records are appended. -/
theorem write_data_hash_mismatch_appends_all_witness :
    (battery_fs_write_data ⟨some [], some ⟨2, 1, 0, 0⟩⟩
        [⟨2, [67]⟩, ⟨3, [68]⟩] true 0).2.dataFile =
      some ([] ++ [⟨2, [67]⟩, ⟨3, [68]⟩]) :=
  write_data_hash_mismatch_appends_all [] ⟨2, 1, 0, 0⟩ [⟨2, [67]⟩, ⟨3, [68]⟩] 0
    (by decide) ⟨2, [67]⟩ (by decide) (by decide)

/-- Counterexample to the Scenario C part of C3: with metadata
`{last_index 13, record_count 4, last_hash crc32("D")}` (the state after
Scenario B) and snapshot `[{12,"X"},{13,"D"},{14,"E"}]`, the hash check is
made against the record at index 13 — which is unchanged — so the
mismatch branch is never reached: the cycle appends exactly 1 record
(`{14,"E"}`) and persists `record_count = 5`, not 3 records and 7. -/
theorem scenario_c_counterexample :
    (battery_fs_write_data
        ⟨some [⟨10, [65]⟩, ⟨11, [66]⟩, ⟨12, [67]⟩, ⟨13, [68]⟩],
         some ⟨13, 4, 0, calculate_data_hash [68]⟩⟩
        [⟨12, [88]⟩, ⟨13, [68]⟩, ⟨14, [69]⟩] true 0).2 =
      ⟨some [⟨10, [65]⟩, ⟨11, [66]⟩, ⟨12, [67]⟩, ⟨13, [68]⟩, ⟨14, [69]⟩],
       some ⟨14, 5, 0, calculate_data_hash [69]⟩⟩
    ∧ (battery_fs_write_data
        ⟨some [⟨10, [65]⟩, ⟨11, [66]⟩, ⟨12, [67]⟩, ⟨13, [68]⟩],
         some ⟨13, 4, 0, calculate_data_hash [68]⟩⟩
        [⟨12, [88]⟩, ⟨13, [68]⟩, ⟨14, [69]⟩] true 0).2.metaFile ≠
      some ⟨14, 7, 0, calculate_data_hash [69]⟩ := by
  constructor
  · decide
  · decide

/-- C10: a metadata-store failure after a successful data append is never
reported: with the metadata write failing (`metaWriteOk = false`) every
cycle on a nonempty snapshot still returns `ESP_OK`, and the metadata
file is left exactly as it was. -/
theorem write_data_meta_failure_still_ok (st : fs_state) (logs : List battery_log)
    (now : Nat) (hne : logs ≠ []) :
    (battery_fs_write_data st logs false now).1 = EspErr.ok
    ∧ (battery_fs_write_data st logs false now).2.metaFile = st.metaFile := by
  obtain ⟨df, mf⟩ := st
  cases logs with
  | nil => exact absurd rfl hne
  | cons a t =>
    cases df with
    | none => simp [battery_fs_write_data]
    | some stored =>
      cases mf with
      | none => simp [battery_fs_write_data]
      | some md =>
        by_cases hemp : (battery_fs_identify_new_records md (a :: t)).isEmpty
        · simp [battery_fs_write_data, hemp]
        · simp [battery_fs_write_data, hemp]

/-- Witness for C10: first-ever sync of one record with the metadata store
failing still returns `ESP_OK` and leaves no metadata behind. -/
theorem write_data_meta_failure_still_ok_witness :
    (battery_fs_write_data ⟨none, none⟩ [⟨1, [65]⟩] false 0).1 = EspErr.ok
    ∧ (battery_fs_write_data ⟨none, none⟩ [⟨1, [65]⟩] false 0).2.metaFile =
      (fs_state.mk none none).metaFile :=
  write_data_meta_failure_still_ok ⟨none, none⟩ [⟨1, [65]⟩] 0 (by decide)

/-- C9: page programming protocol.  Given that the initial ready-wait
succeeds with next status read `k1`: if the WEL bit (bit 1) is not
observed after write-enable, the operation fails *without* issuing
program-load or program-execute; if WEL is observed and the post-execute
ready-wait succeeds at read `k3`, the operation fails when the program-fail
bit (bit 3) is set and otherwise issues write-disable and succeeds.
(Both failures are `ESP_FAIL` in the source; `WriteEnableFailed` vs
`ProgramFailure` is distinguished by whether the program commands were
issued.) -/
theorem spiflash_write_page_protocol (st : Nat → Nat) (fuel k1 : Nat)
    (hready : spiflash_wait_ready st 0 fuel = some k1) :
    ((st k1).testBit 1 = false →
      spiflash_write_page st fuel = (EspErr.fail, [Cmd.writeEnable]))
    ∧ ((st k1).testBit 1 = true →
      ∀ k3, spiflash_wait_ready st (k1 + 1) fuel = some k3 →
        ((st k3).testBit 3 = true →
          spiflash_write_page st fuel =
            (EspErr.fail, [Cmd.writeEnable, Cmd.programLoad, Cmd.programExecute]))
        ∧ ((st k3).testBit 3 = false →
          spiflash_write_page st fuel =
            (EspErr.ok,
              [Cmd.writeEnable, Cmd.programLoad, Cmd.programExecute,
               Cmd.writeDisable]))) := by
  unfold spiflash_write_page
  rw [hready]
  refine ⟨fun hw => by simp [hw], fun hw k3 h3 => ?_⟩
  exact ⟨fun hp => by simp [hw, h3, hp], fun hp => by simp [hw, h3, hp]⟩

/-- Witness for C9, the success path: a device that always reports status
`0x02` (ready, WEL set, no program-fail) makes `spiflash_write_page` run
the full write-enable / program-load / program-execute / write-disable
sequence and return `ESP_OK`. -/
theorem spiflash_write_page_protocol_witness :
    spiflash_write_page (fun _ => 2) 1 =
      (EspErr.ok,
        [Cmd.writeEnable, Cmd.programLoad, Cmd.programExecute, Cmd.writeDisable]) :=
  ((spiflash_write_page_protocol (fun _ => 2) 1 1 (by decide)).2
    (by decide) 3 (by decide)).2 (by decide)

/-- The seek-based last-log scan returns the index of the last complete
8-byte header, independent of the accumulator threading. -/
theorem get_last_log_scan_eq_scanHeaders (bytes : List Nat) (acc : Option Nat) :
    get_last_log_scan bytes acc =
      (match (scanHeaders bytes).getLast? with
       | none => acc
       | some p => some p.1) := by
  induction bytes, acc using get_last_log_scan.induct with
  | case1 a0 a1 a2 a3 b0 b1 b2 b3 rest acc ih =>
    rw [get_last_log_scan, scanHeaders, ih]
    cases hS : scanHeaders (rest.drop (le32 b0 b1 b2 b3)) with
    | nil => simp
    | cons x xs => simp [List.getLast?_cons, List.getLastD_cons]
  | case2 x acc h =>
    rw [get_last_log_scan, scanHeaders]
    · rfl
    · exact h
    · exact h

/-- The entry-count scan counts exactly the complete 8-byte headers. -/
theorem get_entry_count_scan_eq_scanHeaders (bytes : List Nat) :
    get_entry_count_scan bytes = (scanHeaders bytes).length := by
  induction bytes using get_entry_count_scan.induct with
  | case1 a0 a1 a2 a3 b0 b1 b2 b3 rest ih =>
    rw [get_entry_count_scan, scanHeaders]
    simp [ih]
  | case2 x h =>
    rw [get_entry_count_scan, scanHeaders]
    · rfl
    · exact h
    · exact h

/-- The records visited by the payload-reading scan agree with the
seek-based header scan except possibly for one final header whose payload
is truncated (which the seek-based scan still counts). -/
theorem scanHeaders_vs_read_data_scan (bytes : List Nat) :
    scanHeaders bytes =
      (read_data_scan (fun _ _ => true) bytes).map (fun p => (p.1, p.2.length))
    ∨ ∃ q, scanHeaders bytes =
      (read_data_scan (fun _ _ => true) bytes).map (fun p => (p.1, p.2.length)) ++ [q] := by
  induction bytes using read_data_scan.induct (fun _ _ => true) with
  | case1 a0 a1 a2 a3 b0 b1 b2 b3 rest hlen hcb ih =>
    rw [scanHeaders, read_data_scan]
    simp only [hlen, if_true, hcb, List.map_cons, List.length_take,
      Nat.min_eq_left hlen]
    rcases ih with h | ⟨q, h⟩
    · left
      simp [h]
    · right
      exact ⟨q, by simp [h]⟩
  | case2 a0 a1 a2 a3 b0 b1 b2 b3 rest hlen hcb =>
    exact absurd hcb (by simp)
  | case3 a0 a1 a2 a3 b0 b1 b2 b3 rest hlen =>
    right
    refine ⟨(le32 a0 a1 a2 a3, le32 b0 b1 b2 b3), ?_⟩
    rw [scanHeaders, read_data_scan]
    have hdrop : rest.drop (le32 b0 b1 b2 b3) = [] :=
      List.drop_eq_nil_of_le (by omega)
    simp [hdrop, hlen, scanHeaders]
  | case4 x h =>
    left
    rw [scanHeaders, read_data_scan]
    · rfl
    · exact h
    · exact h

/-- C7 (amended): `battery_fs_get_last_log` scans every complete 8-byte
`(index, length)` header, skipping payloads by seek; it stops silently at
a truncated header, but a final record whose header is complete and whose
payload is truncated is still counted — its index is returned, because
the seek does not detect the missing payload bytes.  `ESP_ERR_NOT_FOUND`
is returned exactly when the file does not exist or contains no complete
header. -/
theorem battery_fs_get_last_log_characterization (file : Option (List Nat)) :
    battery_fs_get_last_log file =
      (match file with
       | none => (EspErr.notFound, none)
       | some bytes =>
         match (scanHeaders bytes).getLast? with
         | none => (EspErr.notFound, none)
         | some p => (EspErr.ok, some p.1)) := by
  cases file with
  | none => rfl
  | some bytes =>
    show (match get_last_log_scan bytes none with
          | none => (EspErr.notFound, none)
          | some idx => (EspErr.ok, some idx)) =
      (match (scanHeaders bytes).getLast? with
       | none => ((EspErr.notFound, none) : EspErr × Option Nat)
       | some p => (EspErr.ok, some p.1))
    rw [get_last_log_scan_eq_scanHeaders]
    cases (scanHeaders bytes).getLast? with
    | none => rfl
    | some p => rfl

/-- Counterexample to C7 as stated: the stream
`[1,0,0,0, 5,0,0,0, 9,9,9]` declares one record (index 1, length 5) but
holds only 3 payload bytes, so it contains zero complete records — the
claim requires `NotFound` — yet `battery_fs_get_last_log` returns `ESP_OK`
with index 1, because the `fseek` over the payload does not fail at
end-of-file and the next header read simply stops the loop. -/
theorem battery_fs_get_last_log_counterexample :
    battery_fs_read_data (some [1, 0, 0, 0, 5, 0, 0, 0, 9, 9, 9]) (fun _ _ => true) =
      (EspErr.ok, [])
    ∧ battery_fs_get_last_log (some [1, 0, 0, 0, 5, 0, 0, 0, 9, 9, 9]) =
      (EspErr.ok, some 1) := by
  constructor
  · simp [battery_fs_read_data, read_data_scan.eq_def, le32]
  · simp [battery_fs_get_last_log, get_last_log_scan.eq_def, le32]

/-- C8 (amended): the two seek-based operations agree exactly — the count
returned by `battery_fs_get_entry_count` is the number of headers the
`battery_fs_get_last_log` scan walks, and the returned last index is the
first component of the last such header — while `battery_fs_read_data`
(with an always-continue callback) visits the records of that same header
list except possibly one final header whose payload is truncated, which
the seek-based scans count but the payload-reading scan does not visit. -/
theorem log_scan_consistency (bytes : List Nat) :
    (battery_fs_get_entry_count (some bytes)).2 = (scanHeaders bytes).length
    ∧ (battery_fs_get_last_log (some bytes)).2 =
        ((scanHeaders bytes).getLast?).map Prod.fst
    ∧ (scanHeaders bytes =
        ((battery_fs_read_data (some bytes) (fun _ _ => true)).2).map
          (fun p => (p.1, p.2.length))
      ∨ ∃ q, scanHeaders bytes =
        ((battery_fs_read_data (some bytes) (fun _ _ => true)).2).map
          (fun p => (p.1, p.2.length)) ++ [q]) := by
  refine ⟨get_entry_count_scan_eq_scanHeaders bytes, ?_, scanHeaders_vs_read_data_scan bytes⟩
  show (match get_last_log_scan bytes none with
        | none => (EspErr.notFound, none)
        | some idx => (EspErr.ok, some idx)).2 = _
  rw [get_last_log_scan_eq_scanHeaders]
  cases (scanHeaders bytes).getLast? with
  | none => rfl
  | some p => rfl

/-- Counterexample to C8 as stated: on the stream
`[7,0,0,0, 2,0,0,0, 9]` (complete header for index 7, length 2, but only
1 payload byte) `battery_fs_get_entry_count` counts 1 record and
`battery_fs_get_last_log` returns index 7, while `battery_fs_read_data`
visits 0 records — the three scans do not recognize the same prefix. -/
theorem log_scan_divergence_counterexample :
    battery_fs_get_entry_count (some [7, 0, 0, 0, 2, 0, 0, 0, 9]) = (EspErr.ok, 1)
    ∧ battery_fs_read_data (some [7, 0, 0, 0, 2, 0, 0, 0, 9]) (fun _ _ => true) =
      (EspErr.ok, [])
    ∧ battery_fs_get_last_log (some [7, 0, 0, 0, 2, 0, 0, 0, 9]) =
      (EspErr.ok, some 7) := by
  refine ⟨?_, ?_, ?_⟩
  · simp [battery_fs_get_entry_count, get_entry_count_scan.eq_def, le32]
  · simp [battery_fs_read_data, read_data_scan.eq_def, le32]
  · simp [battery_fs_get_last_log, get_last_log_scan.eq_def, le32]

/-- The fold of `pick_higher` never decreases the candidate's index. -/
theorem le_foldl_pick_higher (t : List battery_log) (init : battery_log) :
    init.memory_index ≤ (t.foldl pick_higher init).memory_index := by
  induction t generalizing init with
  | nil => simp
  | cons a t ih =>
    rw [List.foldl_cons]
    refine le_trans ?_ (ih (pick_higher init a))
    unfold pick_higher
    split <;> omega

/-- Every list element's index is bounded by the fold of `pick_higher`. -/
theorem mem_le_foldl_pick_higher (t : List battery_log) (init : battery_log) :
    ∀ l ∈ t, l.memory_index ≤ (t.foldl pick_higher init).memory_index := by
  induction t generalizing init with
  | nil => intro l hl; cases hl
  | cons a t ih =>
    intro l hl
    rw [List.foldl_cons]
    rcases List.mem_cons.mp hl with rfl | hl'
    · refine le_trans ?_ (le_foldl_pick_higher t (pick_higher init l))
      unfold pick_higher
      split <;> omega
    · exact ih (pick_higher init a) l hl'

/-- The fold of `pick_higher` returns the seed or a list element. -/
theorem foldl_pick_higher_mem (t : List battery_log) (init : battery_log) :
    t.foldl pick_higher init = init ∨ t.foldl pick_higher init ∈ t := by
  induction t generalizing init with
  | nil => left; rfl
  | cons a t ih =>
    rw [List.foldl_cons]
    rcases ih (pick_higher init a) with h | h
    · rw [h]
      unfold pick_higher
      split
      · right; exact List.mem_cons_self _ _
      · left; rfl
    · right; exact List.mem_cons_of_mem _ h

/-- The first element of `init :: t` whose index equals the index of the
`pick_higher` fold is the fold result itself (the fold keeps the first
record attaining the maximum, matching the linear search of
`battery_fs_identify_new_records`). -/
theorem find?_foldl_pick_higher (t : List battery_log) (init : battery_log) :
    (init :: t).find?
      (fun l => l.memory_index == (t.foldl pick_higher init).memory_index) =
      some (t.foldl pick_higher init) := by
  induction t generalizing init with
  | nil => simp [List.find?]
  | cons a t ih =>
    by_cases h : init.memory_index < a.memory_index
    · have hpick : pick_higher init a = a := by
        unfold pick_higher
        rw [if_pos h]
      have hM : (a :: t).foldl pick_higher init = t.foldl pick_higher a := by
        rw [List.foldl_cons, hpick]
      rw [hM]
      have hle := le_foldl_pick_higher t a
      rw [List.find?_cons_of_neg _ (by simp; omega)]
      exact ih a
    · have hpick : pick_higher init a = init := by
        unfold pick_higher
        rw [if_neg h]
      have hM : (a :: t).foldl pick_higher init = t.foldl pick_higher init := by
        rw [List.foldl_cons, hpick]
      rw [hM]
      have hle := le_foldl_pick_higher t init
      by_cases heq : init.memory_index = (t.foldl pick_higher init).memory_index
      · have h1 := ih init
        rw [List.find?_cons_of_pos _ (by simp [heq])] at h1
        rw [List.find?_cons_of_pos _ (by simp [heq])]
        exact h1
      · have h1 := ih init
        rw [List.find?_cons_of_neg _ (by simp [heq])] at h1
        rw [List.find?_cons_of_neg _ (by simp [heq])]
        rw [List.find?_cons_of_neg _ (by simp; omega)]
        exact h1

/-- On a nonempty list the highest-index search result is found by the
linear index search, as the first record with that index. -/
theorem find?_find_highest_index_log (logs : List battery_log) (hne : logs ≠ []) :
    logs.find?
      (fun l => l.memory_index == (find_highest_index_log logs).memory_index) =
      some (find_highest_index_log logs) := by
  cases logs with
  | nil => exact absurd rfl hne
  | cons a t =>
    have h0 : find_highest_index_log (a :: t) = t.foldl pick_higher a := by
      unfold find_highest_index_log
      simp [pick_higher]
    rw [h0]
    exact find?_foldl_pick_higher t a

/-- The highest-index search indeed bounds every snapshot index. -/
theorem find_highest_index_log_is_max (logs : List battery_log) :
    ∀ l ∈ logs, l.memory_index ≤ (find_highest_index_log logs).memory_index := by
  cases logs with
  | nil => intro l hl; cases hl
  | cons a t =>
    intro l hl
    have h0 : find_highest_index_log (a :: t) = t.foldl pick_higher a := by
      unfold find_highest_index_log
      simp [pick_higher]
    rw [h0]
    rcases List.mem_cons.mp hl with rfl | hl'
    · exact le_foldl_pick_higher t l
    · exact mem_le_foldl_pick_higher t a l hl'

/-- The highest-index search returns a record of the snapshot. -/
theorem find_highest_index_log_mem (logs : List battery_log) (hne : logs ≠ []) :
    find_highest_index_log logs ∈ logs := by
  cases logs with
  | nil => exact absurd rfl hne
  | cons a t =>
    have h0 : find_highest_index_log (a :: t) = t.foldl pick_higher a := by
      unfold find_highest_index_log
      simp [pick_higher]
    rw [h0]
    rcases foldl_pick_higher_mem t a with h | h
    · rw [h]; exact List.mem_cons_self _ _
    · exact List.mem_cons_of_mem _ h

/-- A snapshot checked against metadata freshly recomputed from it yields
no new records: the recomputed tail is found in the snapshot, its hash
matches, and no index exceeds the maximum. -/
theorem identify_after_update_nil (md' : battery_metadata) (logs : List battery_log)
    (hne : logs ≠ []) (hrc : md'.record_count ≠ 0)
    (hidx : md'.last_memory_index = (find_highest_index_log logs).memory_index)
    (hhash : md'.last_data_hash = calculate_data_hash (find_highest_index_log logs).data) :
    battery_fs_identify_new_records md' logs = [] := by
  unfold battery_fs_identify_new_records
  rw [if_neg hrc, hidx, find?_find_highest_index_log logs hne]
  dsimp only
  rw [if_neg (show ¬ (calculate_data_hash (find_highest_index_log logs).data ≠
    md'.last_data_hash) by simp [hhash])]
  split
  · rfl
  · rw [List.filter_eq_nil_iff]
    intro l hl
    have := find_highest_index_log_is_max logs l hl
    simp only [decide_eq_true_eq, not_lt]
    omega

/-- A cycle run against metadata whose tail was recomputed from the very
same snapshot identifies nothing new and leaves the state untouched. -/
theorem write_data_no_new_after_refresh (stored' : List battery_log)
    (md' : battery_metadata) (logs : List battery_log) (now2 : Nat)
    (hne : logs ≠ []) (hrc : md'.record_count ≠ 0)
    (hidx : md'.last_memory_index = (find_highest_index_log logs).memory_index)
    (hhash : md'.last_data_hash = calculate_data_hash (find_highest_index_log logs).data) :
    battery_fs_write_data ⟨some stored', some md'⟩ logs true now2 =
      (EspErr.ok, ⟨some stored', some md'⟩) := by
  have hnil := identify_after_update_nil md' logs hne hrc hidx hhash
  cases logs with
  | nil => exact absurd rfl hne
  | cons a t => simp [battery_fs_write_data, hnil]

/-- C5: idempotent sync.  If one cycle runs on any starting state with a
nonempty snapshot and the metadata it leaves behind has a nonzero
`record_count` (true except when the uint32 record counter wraps to 0,
see the counterexample), then a second cycle with the identical snapshot
and that state appends zero records: the data file is unchanged. -/
theorem write_data_idempotent (st : fs_state) (logs : List battery_log)
    (now1 now2 : Nat) (hne : logs ≠ [])
    (hcount : ((battery_fs_write_data st logs true now1).2.metaFile.all
      (fun m' => m'.record_count != 0)) = true) :
    (battery_fs_write_data
        ((battery_fs_write_data st logs true now1).2) logs true now2).2.dataFile =
      ((battery_fs_write_data st logs true now1).2).dataFile := by
  obtain ⟨df, mf⟩ := st
  cases logs with
  | nil => exact absurd rfl hne
  | cons a t =>
    cases df with
    | none =>
      have h1 : battery_fs_write_data ⟨none, mf⟩ (a :: t) true now1 =
          (EspErr.ok, ⟨some (a :: t),
            some (update_metadata 0 false (a :: t) (a :: t).length now1)⟩) := by
        simp [battery_fs_write_data]
      rw [h1] at hcount ⊢
      have hrc : (update_metadata 0 false (a :: t) (a :: t).length now1).record_count ≠ 0 := by
        simpa using hcount
      rw [write_data_no_new_after_refresh _ _ _ now2 (by simp) hrc rfl rfl]
    | some stored =>
      cases mf with
      | none =>
        have h1 : battery_fs_write_data ⟨some stored, none⟩ (a :: t) true now1 =
            (EspErr.ok, ⟨some (a :: t),
              some (update_metadata 0 false (a :: t) (a :: t).length now1)⟩) := by
          simp [battery_fs_write_data]
        rw [h1] at hcount ⊢
        have hrc : (update_metadata 0 false (a :: t) (a :: t).length now1).record_count ≠ 0 := by
          simpa using hcount
        rw [write_data_no_new_after_refresh _ _ _ now2 (by simp) hrc rfl rfl]
      | some md =>
        by_cases hemp : (battery_fs_identify_new_records md (a :: t)).isEmpty
        · have h1 : battery_fs_write_data ⟨some stored, some md⟩ (a :: t) true now1 =
              (EspErr.ok, ⟨some stored, some md⟩) := by
            simp [battery_fs_write_data, hemp]
          rw [h1]
          simp [battery_fs_write_data, hemp]
        · have h1 : battery_fs_write_data ⟨some stored, some md⟩ (a :: t) true now1 =
              (EspErr.ok, ⟨some (stored ++ battery_fs_identify_new_records md (a :: t)),
                some (update_metadata md.record_count true (a :: t)
                  (battery_fs_identify_new_records md (a :: t)).length now1)⟩) := by
            simp [battery_fs_write_data, hemp]
          rw [h1] at hcount ⊢
          have hrc : (update_metadata md.record_count true (a :: t)
              (battery_fs_identify_new_records md (a :: t)).length now1).record_count ≠ 0 := by
            simpa using hcount
          rw [write_data_no_new_after_refresh _ _ _ now2 (by simp) hrc rfl rfl]

/-- Witness for C5: first-ever sync of `[{6,"c"}]` then an identical
second cycle; the second cycle leaves the data file unchanged. -/
theorem write_data_idempotent_witness :
    ((battery_fs_write_data ⟨none, none⟩ [⟨6, [99]⟩] true 0).2.metaFile.all
      (fun m' => m'.record_count != 0)) = true
    ∧ (battery_fs_write_data ((battery_fs_write_data ⟨none, none⟩ [⟨6, [99]⟩] true 0).2)
        [⟨6, [99]⟩] true 1).2.dataFile =
      ((battery_fs_write_data ⟨none, none⟩ [⟨6, [99]⟩] true 0).2).dataFile :=
  ⟨by decide, write_data_idempotent ⟨none, none⟩ [⟨6, [99]⟩] 0 1 (by decide) (by decide)⟩

/-- Counterexample to C5 as stated: starting from stored `record_count =
2^32 - 1`, the first cycle appends `{4,"D"}` and stores
`record_count = 0` (uint32 wraparound); the second cycle, with identical
snapshot and the metadata the first produced, sees `record_count == 0`,
treats the battery as having no existing records, and re-appends both
snapshot records instead of zero. -/
theorem write_data_idempotent_counterexample :
    ((battery_fs_write_data
        ⟨some [⟨3, [67]⟩], some ⟨3, 4294967295, 0, calculate_data_hash [67]⟩⟩
        [⟨3, [67]⟩, ⟨4, [68]⟩] true 0).2).dataFile = some [⟨3, [67]⟩, ⟨4, [68]⟩]
    ∧ (battery_fs_write_data
        ((battery_fs_write_data
          ⟨some [⟨3, [67]⟩], some ⟨3, 4294967295, 0, calculate_data_hash [67]⟩⟩
          [⟨3, [67]⟩, ⟨4, [68]⟩] true 0).2)
        [⟨3, [67]⟩, ⟨4, [68]⟩] true 0).2.dataFile =
      some [⟨3, [67]⟩, ⟨4, [68]⟩, ⟨3, [67]⟩, ⟨4, [68]⟩] :=
  ⟨by decide, by decide⟩

/-- The identified new subset is never larger than the snapshot. -/
theorem identify_length_le (md : battery_metadata) (logs : List battery_log) :
    (battery_fs_identify_new_records md logs).length ≤ logs.length := by
  unfold battery_fs_identify_new_records
  split
  · exact le_refl _
  · split
    · split
      · exact le_refl _
      · split
        · simp
        · exact List.length_filter_le _ _
    · split
      · simp
      · exact List.length_filter_le _ _

/-- C6 (amended): `record_count` is non-decreasing across a successful
cycle provided the uint32 accumulation does not overflow
(`record_count + snapshot size < 2^32`); without that bound the stored
counter wraps (see the counterexample). -/
theorem write_data_record_count_monotone (stored : List battery_log)
    (md : battery_metadata) (logs : List battery_log) (wk : Bool) (now : Nat)
    (hov : md.record_count + logs.length < 2 ^ 32) (m' : battery_metadata)
    (hm : (battery_fs_write_data ⟨some stored, some md⟩ logs wk now).2.metaFile =
      some m') :
    md.record_count ≤ m'.record_count := by
  cases logs with
  | nil =>
    simp [battery_fs_write_data] at hm
    rw [← hm]
  | cons a t =>
    by_cases hemp : (battery_fs_identify_new_records md (a :: t)).isEmpty
    · simp [battery_fs_write_data, hemp] at hm
      rw [← hm]
    · cases wk with
      | false =>
        simp [battery_fs_write_data, hemp] at hm
        rw [← hm]
      | true =>
        simp [battery_fs_write_data, hemp] at hm
        rw [← hm]
        have hle := identify_length_le md (a :: t)
        simp [update_metadata]
        rw [Nat.mod_eq_of_lt (by omega)]
        omega

/-- Witness for C6: appending `{5,"b"}` to a store with `record_count = 1`
yields `record_count = 2 ≥ 1`. -/
theorem write_data_record_count_monotone_witness :
    (battery_fs_write_data
        ⟨some [⟨4, [97]⟩], some ⟨4, 1, 0, calculate_data_hash [97]⟩⟩
        [⟨4, [97]⟩, ⟨5, [98]⟩] true 0).2.metaFile =
      some ⟨5, 2, 0, calculate_data_hash [98]⟩
    ∧ (1 : Nat) ≤ (2 : Nat) :=
  ⟨by decide,
   write_data_record_count_monotone [⟨4, [97]⟩] ⟨4, 1, 0, calculate_data_hash [97]⟩
    [⟨4, [97]⟩, ⟨5, [98]⟩] true 0 (by decide) ⟨5, 2, 0, calculate_data_hash [98]⟩
    (by decide)⟩

/-- Counterexample to C6 as stated: with stored `record_count = 2^32 - 1`
a cycle that appends one record persists `record_count = 0`
(`uint32` wraparound), which is smaller than the previous count. -/
theorem write_data_record_count_wrap_counterexample :
    (battery_fs_write_data
        ⟨some [⟨9, [77]⟩], some ⟨9, 4294967295, 0, calculate_data_hash [77]⟩⟩
        [⟨9, [77]⟩, ⟨10, [78]⟩] true 0).2.metaFile =
      some ⟨10, 0, 0, calculate_data_hash [78]⟩
    ∧ ¬ ((4294967295 : Nat) ≤ 0) :=
  ⟨by decide, by decide⟩

/-- C4 (amended): after a cycle that appends at least one record the
persisted metadata is recomputed from the whole snapshot — `last_index` is
the index of the first record attaining the highest snapshot index (which
bounds every snapshot index and belongs to the snapshot), `last_hash` is
that record's payload hash, and `record_count` accumulates the appended
count modulo 2^32 (or is the snapshot size on a first-ever sync).  A
cycle that appends zero records returns early and performs *no* metadata
write: the stored metadata is left exactly as it was. -/
theorem write_data_metadata_update (st : fs_state) (logs : List battery_log)
    (now : Nat) (hne : logs ≠ []) :
    ((st.dataFile = none ∨ st.metaFile = none) →
      (battery_fs_write_data st logs true now).2.dataFile = some logs
      ∧ (battery_fs_write_data st logs true now).2.metaFile =
        some ⟨(find_highest_index_log logs).memory_index,
              logs.length % 2 ^ 32, now % 2 ^ 32,
              calculate_data_hash (find_highest_index_log logs).data⟩)
    ∧ (∀ stored md, st.dataFile = some stored → st.metaFile = some md →
        battery_fs_identify_new_records md logs ≠ [] →
        (battery_fs_write_data st logs true now).2.dataFile =
          some (stored ++ battery_fs_identify_new_records md logs)
        ∧ (battery_fs_write_data st logs true now).2.metaFile =
          some ⟨(find_highest_index_log logs).memory_index,
                (md.record_count +
                  (battery_fs_identify_new_records md logs).length) % 2 ^ 32,
                now % 2 ^ 32,
                calculate_data_hash (find_highest_index_log logs).data⟩)
    ∧ (∀ stored md, st.dataFile = some stored → st.metaFile = some md →
        battery_fs_identify_new_records md logs = [] →
        battery_fs_write_data st logs true now = (EspErr.ok, st))
    ∧ (find_highest_index_log logs ∈ logs
        ∧ ∀ l ∈ logs, l.memory_index ≤ (find_highest_index_log logs).memory_index) := by
  obtain ⟨df, mf⟩ := st
  cases logs with
  | nil => exact absurd rfl hne
  | cons a t =>
    refine ⟨?_, ?_, ?_, find_highest_index_log_mem _ (by simp),
      find_highest_index_log_is_max _⟩
    · intro hcase
      cases df with
      | none => simp [battery_fs_write_data, update_metadata]
      | some stored =>
        cases mf with
        | none => simp [battery_fs_write_data, update_metadata]
        | some md => rcases hcase with h | h <;> simp at h
    · intro stored md hdf hmf hnonnil
      have h1 : df = some stored := hdf
      have h2 : mf = some md := hmf
      subst h1
      subst h2
      have hemp : ¬ ((battery_fs_identify_new_records md (a :: t)).isEmpty = true) := by
        rw [List.isEmpty_iff]
        exact hnonnil
      constructor
      · simp [battery_fs_write_data, hemp]
      · simp [battery_fs_write_data, hemp, update_metadata]
    · intro stored md hdf hmf hnil
      have h1 : df = some stored := hdf
      have h2 : mf = some md := hmf
      subst h1
      subst h2
      simp [battery_fs_write_data, hnil]

/-- Witness for C4: a first-ever sync of `[{8,d},{7,c}]` writes both
records and metadata recomputed from the highest-index record `{8,d}`. -/
theorem write_data_metadata_update_witness :
    (battery_fs_write_data ⟨none, none⟩ [⟨8, [100]⟩, ⟨7, [99]⟩] true 5).2.dataFile =
      some [⟨8, [100]⟩, ⟨7, [99]⟩]
    ∧ (battery_fs_write_data ⟨none, none⟩ [⟨8, [100]⟩, ⟨7, [99]⟩] true 5).2.metaFile =
      some ⟨(find_highest_index_log [⟨8, [100]⟩, ⟨7, [99]⟩]).memory_index,
            2 % 2 ^ 32, 5 % 2 ^ 32,
            calculate_data_hash (find_highest_index_log [⟨8, [100]⟩, ⟨7, [99]⟩]).data⟩ :=
  (write_data_metadata_update ⟨none, none⟩ [⟨8, [100]⟩, ⟨7, [99]⟩] 5 (by decide)).1
    (Or.inl rfl)

/-- Counterexample to C4 as stated: metadata `{last_index 400, count 2}`
whose tail record `{400,"Z"}` matches the snapshot, snapshot
`[{400,"Z"},{401,"["}]`.  The cycle completes with `ESP_OK` appending
zero records (wraparound guard), and the persisted metadata still has
`last_index 400`, although the highest index occurring in the snapshot is
401 — so the claim's "including new_count = 0" case is false: no
metadata recomputation happens on a zero-append cycle. -/
theorem write_data_metadata_update_counterexample :
    battery_fs_write_data
      ⟨some [⟨400, [90]⟩], some ⟨400, 2, 0, calculate_data_hash [90]⟩⟩
      [⟨400, [90]⟩, ⟨401, [91]⟩] true 0 =
      (EspErr.ok, ⟨some [⟨400, [90]⟩], some ⟨400, 2, 0, calculate_data_hash [90]⟩⟩)
    ∧ (find_highest_index_log [⟨400, [90]⟩, ⟨401, [91]⟩]).memory_index = 401
    ∧ (400 : Nat) ≠ 401 :=
  ⟨by decide, by decide, by decide⟩
